import Mathlib

/-!
Verification of the batched listing-generation pipeline
(`openai-client.ts` generator and inserter, `generate-listings.ts`
orchestrator) against its natural-language specification.

JavaScript numbers are modelled as rationals (`ℚ`), with the
`Number.isInteger` test rendered as denominator-one; fallible values are
`Option`; the LLM endpoint, the per-record transaction outcome and the
interactive confirmation prompt are environment parameters.
-/

namespace ZillowData

/-- A generated photo object as accepted by the zod schema: every field
optional (`caption`, `roomType`, `isPrimary`, `sortOrder`). -/
structure GeneratedPhoto where
  caption : Option String
  roomType : Option String
  isPrimary : Option Bool
  sortOrder : Option ℤ
deriving DecidableEq

/-- A generated property record as it reaches the inserter.  The eleven
fields that `validatePropertyData` null-checks are carried as `Option`
so that the defensive missing-field branch of the source is expressible;
the remaining scalar columns are irrelevant to every claim and omitted. -/
structure GeneratedProperty where
  zpid : Option String
  address : Option String
  zipCode : Option String
  latitude : Option ℚ
  longitude : Option ℚ
  bedrooms : Option ℚ
  bathrooms : Option ℚ
  sqft : Option ℚ
  yearBuilt : Option ℚ
  propertyType : Option String
  price : Option ℚ
  photos : Option (List GeneratedPhoto)
deriving DecidableEq

/-- `requiredFields` null-check loop of `validatePropertyData`
(openai-client.ts lines 519-529): each of the eleven listed fields must
be non-null. -/
def requiredFieldsPresent (p : GeneratedProperty) : Bool :=
  p.zpid.isSome && p.address.isSome && p.zipCode.isSome &&
  p.latitude.isSome && p.longitude.isSome && p.bedrooms.isSome &&
  p.bathrooms.isSome && p.sqft.isSome && p.yearBuilt.isSome &&
  p.propertyType.isSome && p.price.isSome

/-- The range checks of `validatePropertyData` (openai-client.ts lines
532-543), in source order; each failed guard is an early `return false`,
rendered as a short-circuit conjunction.  `Number.isInteger` on a
rational is denominator-one. -/
def rangeChecksOk (p : GeneratedProperty) : Bool :=
  match p.bedrooms, p.bathrooms, p.sqft, p.price, p.yearBuilt,
        p.latitude, p.longitude with
  | some bd, some ba, some sq, some pr, some yb, some la, some lo =>
      !decide (bd ≤ 0 ∨ bd.den ≠ 1) &&
      (!decide (ba ≤ 0) &&
      (!decide (sq ≤ 0 ∨ sq.den ≠ 1) &&
      (!decide (pr ≤ 0 ∨ pr.den ≠ 1) &&
      (!decide (yb < 1800 ∨ 2024 < yb) &&
      (!decide (la < (37.8 : ℚ) ∨ (37.9 : ℚ) < la) &&
      !decide (lo < (-122.3 : ℚ) ∨ (-122.2 : ℚ) < lo))))))
  | _, _, _, _, _, _, _ => false

/-- `validatePropertyData` (openai-client.ts lines 517-546): required
fields present, then the range checks. -/
def validatePropertyData (p : GeneratedProperty) : Bool :=
  requiredFieldsPresent p && rangeChecksOk p

/-- One persisted `PropertyPhoto` row: the columns the pipeline writes
(photo_url is nullable in the Prisma schema). -/
structure StoredPhoto where
  photoUrl : Option String
  caption : Option String
  roomType : Option String
  isPrimary : Bool
  sortOrder : ℤ
deriving DecidableEq

/-- One persisted property aggregate: the root row's scalar columns
(kept as the originating record) plus its photo rows. -/
structure StoredRecord where
  zpid : Option String
  prop : GeneratedProperty
  photos : List StoredPhoto
deriving DecidableEq

/-- The relational store, as the list of inserted aggregates in
insertion order. -/
abbrev Store := List StoredRecord

/-- The `findUnique where zpid` duplicate probe (openai-client.ts lines
402-404). -/
def existsZpid (store : Store) (z : Option String) : Bool :=
  store.any (fun r => r.zpid == z)

/-- The placeholder photo URL written by the transaction
(openai-client.ts line 498), interpolating the record's zpid and the
1-based photo position. -/
def placeholderUrl (z : Option String) (n : ℕ) : String :=
  "https://placeholder.com/property_" ++ z.getD ("null") ++ "_photo_" ++
    toString n ++ ".jpg"

/-- The photo-row loop of the insert transaction (openai-client.ts lines
492-506): for the i-th photo, photo_url gets the placeholder, isPrimary
defaults to `i = 0` and sortOrder defaults to `i` via null coalescing. -/
def mkPhotoRows (p : GeneratedProperty) : List StoredPhoto :=
  match p.photos with
  | none => []
  | some ps => ps.enum.map (fun ip =>
      { photoUrl := some (placeholderUrl p.zpid (ip.1 + 1))
        caption := ip.2.caption
        roomType := ip.2.roomType
        isPrimary := ip.2.isPrimary.getD (decide (ip.1 = 0))
        sortOrder := ip.2.sortOrder.getD (ip.1 : ℤ) })

/-- `insertSingleProperty` (openai-client.ts lines 393-515): validation
guard, duplicate guard, then the atomic transaction.  `txOk` is the
environment's verdict on the transaction; a thrown transaction is caught
and, being atomic, leaves the store untouched and yields `false`. -/
def insertSingleProperty (store : Store) (p : GeneratedProperty)
    (txOk : Bool) : Store × Bool :=
  if validatePropertyData p = false then (store, false)
  else if existsZpid store p.zpid then (store, false)
  else if txOk then
    (store ++ [{ zpid := p.zpid, prop := p, photos := mkPhotoRows p }], true)
  else (store, false)

/-- `insertProperties` (openai-client.ts lines 375-391): fold over the
records in order, counting the successful inserts; every per-record
failure is swallowed.  Each record is paired with its transaction
verdict from the environment. -/
def insertProperties (store : Store) :
    List (GeneratedProperty × Bool) → Store × ℕ
  | [] => (store, 0)
  | (p, tx) :: rest =>
      let r := insertSingleProperty store p tx
      let rec' := insertProperties r.1 rest
      (rec'.1, (if r.2 then 1 else 0) + rec'.2)

/-- The per-record success flags of an `insertProperties` run, in input
order (the value `insertSingleProperty` returned for each record). -/
def insertResults (store : Store) :
    List (GeneratedProperty × Bool) → List Bool
  | [] => []
  | (p, tx) :: rest =>
      let r := insertSingleProperty store p tx
      r.2 :: insertResults r.1 rest

/-! ### Batch Generator: slicing and event traces (openai-client.ts
lines 65-90) -/

/-- The slicing loop of `generatePropertyBatch`: `for (i = 0; i <
requests.length; i += batchSize) slice(i, i + batchSize)`.  A batch
size of zero would loop forever in the source; it is mapped to the
empty slicing. -/
def sliceBatches {α : Type} (b : ℕ) (l : List α) : List (List α) :=
  match l with
  | [] => []
  | x :: xs =>
      if b = 0 then []
      else (x :: xs).take b :: sliceBatches b ((x :: xs).drop b)
termination_by l.length
decreasing_by
  simp only [List.length_drop, List.length_cons]
  omega

/-- Observable steps of the generation loop: one completion-API call
per slice, and the fixed `setTimeout` pause (in milliseconds). -/
inductive BatchEvent (α : Type) where
  | apiCall (slice : List α)
  | pause (ms : ℕ)
deriving DecidableEq

/-- The body of `generatePropertyBatch` (openai-client.ts lines 71-87)
as an event trace plus accumulated results.  `outcome i` is the
environment's verdict on the i-th slice's API call: `some r` means the
call returned record list `r` (parse failures included, as the empty
list), `none` means it threw.  A throw is caught by `catch { continue }`
which skips the trailing 1000 ms pause; a completed call appends its
records and then pauses. -/
def runBatches {α β : Type} (outcome : ℕ → Option (List β)) (b : ℕ)
    (i : ℕ) (l : List α) : List (BatchEvent α) × List β :=
  match l with
  | [] => ([], [])
  | x :: xs =>
      if b = 0 then ([], [])
      else
        let batch := (x :: xs).take b
        let rest := runBatches outcome b (i + 1) ((x :: xs).drop b)
        match outcome i with
        | some r =>
            (BatchEvent.apiCall batch :: BatchEvent.pause 1000 ::
               rest.1, r ++ rest.2)
        | none => (BatchEvent.apiCall batch :: rest.1, rest.2)
termination_by l.length
decreasing_by
  simp only [List.length_drop, List.length_cons]
  omega

/-- `generatePropertyBatch(requests, batchSize)`: the loop starting at
slice index 0. -/
def generatePropertyBatch {α β : Type} (outcome : ℕ → Option (List β))
    (requests : List α) (b : ℕ) : List (BatchEvent α) × List β :=
  runBatches outcome b 0 requests

/-- The slices sent to the completion endpoint, in call order. -/
def apiSlices {α : Type} (events : List (BatchEvent α)) :
    List (List α) :=
  events.filterMap (fun e =>
    match e with
    | BatchEvent.apiCall s => some s
    | BatchEvent.pause _ => none)

/-- How many inter-slice pauses a trace performs. -/
def pauseCount {α : Type} (events : List (BatchEvent α)) : ℕ :=
  events.countP (fun e =>
    match e with
    | BatchEvent.apiCall _ => false
    | BatchEvent.pause _ => true)

/-- The number of slice indices in `i, i+1, ..., i+k-1` whose API call
completes without throwing. -/
def successPauses {β : Type} (outcome : ℕ → Option (List β)) :
    ℕ → ℕ → ℕ
  | _, 0 => 0
  | i, k + 1 =>
      (if (outcome i).isSome then 1 else 0) +
        successPauses outcome (i + 1) k

/-! ### Orchestrator (generate-listings.ts lines 38-115) -/

/-- The environment's verdict on one chunk's generation phase: `none`
when `generatePropertyBatch` threw (caught at the chunk boundary),
otherwise the generated records, each paired with its transaction
verdict. -/
abbrev ChunkOutcome := Option (List (GeneratedProperty × Bool))

/-- The orchestrator's `GenerationProgress` counters (the timing fields
play no role in any claim). -/
structure GenProgress where
  totalGenerated : ℕ
  totalInserted : ℕ
  currentChunk : ℕ
  failedChunks : List ℕ
  store : Store
deriving DecidableEq

/-- Progress at the start of a run. -/
def initProgress : GenProgress :=
  { totalGenerated := 0, totalInserted := 0, currentChunk := 0,
    failedChunks := [], store := [] }

/-- One iteration of the chunk loop (generate-listings.ts lines
62-102): a thrown chunk is recorded in `failedChunks` and skipped; an
empty generation result is skipped; otherwise the generated records are
inserted and both counters advance. -/
def processChunk (st : GenProgress) (c : ℕ × ChunkOutcome) :
    GenProgress :=
  match c.2 with
  | none =>
      { st with currentChunk := st.currentChunk + 1,
                failedChunks :=
                  st.failedChunks ++ [st.currentChunk + 1] }
  | some gen =>
      if gen.isEmpty then { st with currentChunk := st.currentChunk + 1 }
      else
        { st with currentChunk := st.currentChunk + 1,
                  totalGenerated := st.totalGenerated + gen.length,
                  totalInserted :=
                    st.totalInserted + (insertProperties st.store gen).2,
                  store := (insertProperties st.store gen).1 }

/-- The whole chunk loop. -/
def processChunks (chunks : List (ℕ × ChunkOutcome)) : GenProgress :=
  chunks.foldl processChunk initProgress

/-- The number of planned requests covered by the given chunks (each
chunk's first component is its request count). -/
def plannedCount (chunks : List (ℕ × ChunkOutcome)) : ℕ :=
  (chunks.map (fun c => c.1)).sum

/-- `generateAllData` (generate-listings.ts lines 38-115): when the
store is non-empty and the operator does not answer yes to the
confirmation prompt, the method returns before planning and no summary
is produced (`none`); otherwise the chunk loop runs to completion and
the summary is produced from the final progress. -/
def generateAllData (dbCount : ℕ) (userConfirm : Bool)
    (chunks : List (ℕ × ChunkOutcome)) : Option GenProgress :=
  if 0 < dbCount ∧ userConfirm = false then none
  else some (processChunks chunks)

/-- Outcome of a whole run, including the constructor-time credential
check (generate-listings.ts lines 21-24). -/
inductive RunOutcome where
  | setupError
  | abortedByUser
  | done (result : GenProgress)
deriving DecidableEq

/-- Whether a run reached the terminal summarizing state. -/
def isDone : RunOutcome → Bool
  | RunOutcome.done _ => true
  | _ => false

/-- A full run: a missing API credential throws in the orchestrator's
constructor before any work; then `generateAllData` either returns
early at the confirmation prompt or reaches the summary. -/
def runGeneration (apiKeyPresent : Bool) (dbCount : ℕ)
    (userConfirm : Bool) (chunks : List (ℕ × ChunkOutcome)) :
    RunOutcome :=
  if apiKeyPresent = false then RunOutcome.setupError
  else
    match generateAllData dbCount userConfirm chunks with
    | none => RunOutcome.abortedByUser
    | some r => RunOutcome.done r

/-! ### Request Planner (openai-client.ts lines 257-332) -/

/-- The closed property-type enumeration. -/
inductive PropertyType where
  | single_family
  | condo
  | townhouse
deriving DecidableEq, Inhabited

/-- A generation request as produced by `createPropertyRequests`. -/
structure PropertyGenerationRequest where
  propertyType : PropertyType
  priceRange : ℚ × ℚ
  bedrooms : ℕ
  bathrooms : ℚ
  sqftRange : ℚ × ℚ
  yearBuiltRange : ℚ × ℚ
deriving DecidableEq, Inhabited

/-- A property-type distribution entry. -/
structure PropertyTypeDistribution where
  type : PropertyType
  weight : ℚ
deriving DecidableEq

/-- A bedroom distribution entry. -/
structure BedroomDistribution where
  bedrooms : ℕ
  weight : ℚ
deriving DecidableEq

/-- The fixed 70/20/10 property-type mix. -/
def propertyTypesDist : List PropertyTypeDistribution :=
  [⟨PropertyType.single_family, 7/10⟩, ⟨PropertyType.condo, 2/10⟩,
   ⟨PropertyType.townhouse, 1/10⟩]

/-- The fixed 20/40/30/10 bedroom mix. -/
def bedroomDist : List BedroomDistribution :=
  [⟨2, 2/10⟩, ⟨3, 4/10⟩, ⟨4, 3/10⟩, ⟨5, 1/10⟩]

/-- The cumulative-subtraction loop of `weightedRandom` (openai-client.ts
lines 322-332): subtract weights until the scaled draw is exhausted. -/
def weightedRandomGo {T : Type} (w : T → ℚ) : List T → ℚ → Option T
  | [], _ => none
  | x :: xs, r =>
      if r - w x ≤ 0 then some x else weightedRandomGo w xs (r - w x)

/-- `weightedRandom`: scale a uniform draw by the total weight, run the
subtraction loop, and fall back to the last item. -/
def weightedRandom {T : Type} (w : T → ℚ) (items : List T)
    (rand01 : ℚ) : Option T :=
  let total := (items.map w).sum
  match weightedRandomGo w items (rand01 * total) with
  | some x => some x
  | none => items.getLast?

/-- JavaScript `Math.round`: floor of x + 1/2 (half rounds up). -/
def jsRound (q : ℚ) : ℤ := ⌊q + 1 / 2⌋

/-- The bathroom derivation `Math.round(bedrooms * u * 2) / 2`
(openai-client.ts line 283). -/
def bathroomsOf (bedrooms : ℕ) (u : ℚ) : ℚ :=
  ((jsRound ((bedrooms : ℚ) * u * 2) : ℤ) : ℚ) / 2

/-- The per-type price table of the `switch` (openai-client.ts lines
289-305); the defensive `default` branch is unreachable over the closed
enum and the Lean match is accordingly total. -/
def priceRangeOf : PropertyType → ℚ × ℚ
  | PropertyType.single_family => (1400000, 2500000)
  | PropertyType.condo => (800000, 1200000)
  | PropertyType.townhouse => (1200000, 1800000)

/-- The per-type square-footage table of the same `switch`. -/
def sqftRangeOf : PropertyType → ℚ × ℚ
  | PropertyType.single_family => (1800, 3500)
  | PropertyType.condo => (900, 1800)
  | PropertyType.townhouse => (1400, 2400)

/-- `createPropertyRequests` (openai-client.ts lines 257-320): each
iteration draws the property type, the bedroom count and the bathroom
multiplier from the random stream `rng` (draw indices 3i, 3i+1, 3i+2);
the `getD` defaults are unreachable because both distributions are
non-empty. -/
def createPropertyRequests (total : ℕ) (rng : ℕ → ℚ) :
    List PropertyGenerationRequest :=
  (List.range total).map (fun i =>
    let ptd := (weightedRandom (fun d => d.weight) propertyTypesDist
      (rng (3 * i))).getD ⟨PropertyType.single_family, 7/10⟩
    let bdd := (weightedRandom (fun d => d.weight) bedroomDist
      (rng (3 * i + 1))).getD ⟨2, 2/10⟩
    { propertyType := ptd.type
      priceRange := priceRangeOf ptd.type
      bedrooms := bdd.bedrooms
      bathrooms := bathroomsOf bdd.bedrooms
        ((3 / 4 : ℚ) + rng (3 * i + 2) * (1 / 2))
      sqftRange := sqftRangeOf ptd.type
      yearBuiltRange := ((1920 : ℚ), (2020 : ℚ)) })

/-! ### Markdown-fence stripping (openai-client.ts lines 119-127)

Strings are modelled as `List Char` so the regex replaces admit direct
recursion. -/

/-- The whitespace class matched by JavaScript's `trim` and `\s` for
the characters at issue. -/
def isJsWs (c : Char) : Bool :=
  c == ' ' || c == '\t' || c == '\n' || c == '\r' ||
  c == Char.ofNat 11 || c == Char.ofNat 12

/-- Drop leading whitespace. -/
def ltrimWs (l : List Char) : List Char := l.dropWhile isJsWs

/-- Drop trailing whitespace. -/
def rtrimWs (l : List Char) : List Char := (ltrimWs l.reverse).reverse

/-- JavaScript `String.prototype.trim`. -/
def jsTrim (l : List Char) : List Char := rtrimWs (ltrimWs l)

/-- The backtick character. -/
def btick : Char := Char.ofNat 96

/-- A three-backtick fence opener/closer. -/
def fence3 : List Char := [btick, btick, btick]

/-- The seven-character json fence opener. -/
def fenceJson : List Char := fence3 ++ ['j', 's', 'o', 'n']

/-- The regex replace of `\s*` + fence + end-anchor by the empty
string: when the text ends with the fence, remove it and the
whitespace run before it; otherwise leave the text unchanged. -/
def stripTrailingFence (l : List Char) : List Char :=
  if fence3.isSuffixOf l then rtrimWs (l.take (l.length - 3)) else l

/-- The fence-stripping step applied to the completion response: trim,
then strip a leading json fence or a leading plain fence together with
the trailing fence; text opening with neither fence passes through the
conditional untouched. -/
def stripFences (content : List Char) : List Char :=
  let j := jsTrim content
  if fenceJson.isPrefixOf j then stripTrailingFence (ltrimWs (j.drop 7))
  else if fence3.isPrefixOf j then
    stripTrailingFence (ltrimWs (j.drop 3))
  else j

/-- A payload wrapped in json fences on their own lines. -/
def wrapJson (t : List Char) : List Char :=
  fenceJson ++ '\n' :: (t ++ '\n' :: fence3)

/-- A payload wrapped in plain fences on their own lines. -/
def wrapPlain (t : List Char) : List Char :=
  fence3 ++ '\n' :: (t ++ '\n' :: fence3)

/-- An all-null record, used to instantiate the rejection theorem. -/
def emptyProp : GeneratedProperty :=
  ⟨none, none, none, none, none, none, none, none, none, none, none,
    none⟩

/-- A well-formed sample record that passes validation. -/
def sampleProp : GeneratedProperty :=
  { zpid := some ("12345678")
    address := some ("5400 College Ave")
    zipCode := some ("94618")
    latitude := some ((37.85 : ℚ))
    longitude := some ((-122.25 : ℚ))
    bedrooms := some ((3 : ℚ))
    bathrooms := some ((2 : ℚ))
    sqft := some ((1500 : ℚ))
    yearBuilt := some ((1950 : ℚ))
    propertyType := some ("single_family")
    price := some ((1000000 : ℚ))
    photos := none }

/-- A stored aggregate built from the sample record, used to exercise
the duplicate path. -/
def sampleStored : StoredRecord :=
  { zpid := sampleProp.zpid, prop := sampleProp, photos := [] }

/-- A valid record carrying one photo with no explicit fields, so every
photo default is exercised. -/
def photoProp : GeneratedProperty :=
  { sampleProp with
    zpid := some ("87654321")
    photos := some [⟨none, none, none, none⟩] }

/-! ### Theorems -/

/-- A record with a null required field fails validation. -/
lemma validate_false_of_missing (p : GeneratedProperty)
    (h : p.zpid = none ∨ p.address = none ∨ p.zipCode = none ∨
         p.latitude = none ∨ p.longitude = none ∨ p.bedrooms = none ∨
         p.bathrooms = none ∨ p.sqft = none ∨ p.yearBuilt = none ∨
         p.propertyType = none ∨ p.price = none) :
    validatePropertyData p = false := by
  rcases h with h|h|h|h|h|h|h|h|h|h|h <;>
    simp [validatePropertyData, requiredFieldsPresent, h]

/-- A non-positive or non-integral bedroom count fails validation. -/
lemma validate_false_of_bad_bedrooms (p : GeneratedProperty) (b : ℚ)
    (hb : p.bedrooms = some b) (hbad : b ≤ 0 ∨ b.den ≠ 1) :
    validatePropertyData p = false := by
  unfold validatePropertyData
  rcases hba : p.bathrooms with _ | ba
  · simp [requiredFieldsPresent, hba]
  rcases hsq : p.sqft with _ | sq
  · simp [requiredFieldsPresent, hsq]
  rcases hpr : p.price with _ | pr
  · simp [requiredFieldsPresent, hpr]
  rcases hyb : p.yearBuilt with _ | yb
  · simp [requiredFieldsPresent, hyb]
  rcases hla : p.latitude with _ | la
  · simp [requiredFieldsPresent, hla]
  rcases hlo : p.longitude with _ | lo
  · simp [requiredFieldsPresent, hlo]
  simp [rangeChecksOk, hb, hba, hsq, hpr, hyb, hla, hlo, hbad]

/-- A non-positive bathroom count fails validation. -/
lemma validate_false_of_bad_bathrooms (p : GeneratedProperty) (b : ℚ)
    (hb : p.bathrooms = some b) (hbad : b ≤ 0) :
    validatePropertyData p = false := by
  unfold validatePropertyData
  rcases hbd : p.bedrooms with _ | bd
  · simp [requiredFieldsPresent, hbd]
  rcases hsq : p.sqft with _ | sq
  · simp [requiredFieldsPresent, hsq]
  rcases hpr : p.price with _ | pr
  · simp [requiredFieldsPresent, hpr]
  rcases hyb : p.yearBuilt with _ | yb
  · simp [requiredFieldsPresent, hyb]
  rcases hla : p.latitude with _ | la
  · simp [requiredFieldsPresent, hla]
  rcases hlo : p.longitude with _ | lo
  · simp [requiredFieldsPresent, hlo]
  simp [rangeChecksOk, hb, hbd, hsq, hpr, hyb, hla, hlo, hbad]

/-- A non-positive or non-integral square footage fails validation. -/
lemma validate_false_of_bad_sqft (p : GeneratedProperty) (s : ℚ)
    (hs : p.sqft = some s) (hbad : s ≤ 0 ∨ s.den ≠ 1) :
    validatePropertyData p = false := by
  unfold validatePropertyData
  rcases hbd : p.bedrooms with _ | bd
  · simp [requiredFieldsPresent, hbd]
  rcases hba : p.bathrooms with _ | ba
  · simp [requiredFieldsPresent, hba]
  rcases hpr : p.price with _ | pr
  · simp [requiredFieldsPresent, hpr]
  rcases hyb : p.yearBuilt with _ | yb
  · simp [requiredFieldsPresent, hyb]
  rcases hla : p.latitude with _ | la
  · simp [requiredFieldsPresent, hla]
  rcases hlo : p.longitude with _ | lo
  · simp [requiredFieldsPresent, hlo]
  simp [rangeChecksOk, hs, hbd, hba, hpr, hyb, hla, hlo, hbad]

/-- A non-positive or non-integral price fails validation. -/
lemma validate_false_of_bad_price (p : GeneratedProperty) (q : ℚ)
    (hq : p.price = some q) (hbad : q ≤ 0 ∨ q.den ≠ 1) :
    validatePropertyData p = false := by
  unfold validatePropertyData
  rcases hbd : p.bedrooms with _ | bd
  · simp [requiredFieldsPresent, hbd]
  rcases hba : p.bathrooms with _ | ba
  · simp [requiredFieldsPresent, hba]
  rcases hsq : p.sqft with _ | sq
  · simp [requiredFieldsPresent, hsq]
  rcases hyb : p.yearBuilt with _ | yb
  · simp [requiredFieldsPresent, hyb]
  rcases hla : p.latitude with _ | la
  · simp [requiredFieldsPresent, hla]
  rcases hlo : p.longitude with _ | lo
  · simp [requiredFieldsPresent, hlo]
  simp [rangeChecksOk, hq, hbd, hba, hsq, hyb, hla, hlo, hbad]

/-- A year built below 1800 or above the source's fixed upper bound 2024
fails validation. -/
lemma validate_false_of_bad_year (p : GeneratedProperty) (v : ℚ)
    (hv : p.yearBuilt = some v) (hbad : v < 1800 ∨ 2024 < v) :
    validatePropertyData p = false := by
  unfold validatePropertyData
  rcases hbd : p.bedrooms with _ | bd
  · simp [requiredFieldsPresent, hbd]
  rcases hba : p.bathrooms with _ | ba
  · simp [requiredFieldsPresent, hba]
  rcases hsq : p.sqft with _ | sq
  · simp [requiredFieldsPresent, hsq]
  rcases hpr : p.price with _ | pr
  · simp [requiredFieldsPresent, hpr]
  rcases hla : p.latitude with _ | la
  · simp [requiredFieldsPresent, hla]
  rcases hlo : p.longitude with _ | lo
  · simp [requiredFieldsPresent, hlo]
  simp [rangeChecksOk, hv, hbd, hba, hsq, hpr, hla, hlo, hbad]

/-- A latitude outside the bounding box fails validation. -/
lemma validate_false_of_bad_latitude (p : GeneratedProperty) (v : ℚ)
    (hv : p.latitude = some v)
    (hbad : v < (37.8 : ℚ) ∨ (37.9 : ℚ) < v) :
    validatePropertyData p = false := by
  unfold validatePropertyData
  rcases hbd : p.bedrooms with _ | bd
  · simp [requiredFieldsPresent, hbd]
  rcases hba : p.bathrooms with _ | ba
  · simp [requiredFieldsPresent, hba]
  rcases hsq : p.sqft with _ | sq
  · simp [requiredFieldsPresent, hsq]
  rcases hpr : p.price with _ | pr
  · simp [requiredFieldsPresent, hpr]
  rcases hyb : p.yearBuilt with _ | yb
  · simp [requiredFieldsPresent, hyb]
  rcases hlo : p.longitude with _ | lo
  · simp [requiredFieldsPresent, hlo]
  simp [rangeChecksOk, hv, hbd, hba, hsq, hpr, hyb, hlo, hbad]

/-- A longitude outside the bounding box fails validation. -/
lemma validate_false_of_bad_longitude (p : GeneratedProperty) (v : ℚ)
    (hv : p.longitude = some v)
    (hbad : v < (-122.3 : ℚ) ∨ (-122.2 : ℚ) < v) :
    validatePropertyData p = false := by
  unfold validatePropertyData
  rcases hbd : p.bedrooms with _ | bd
  · simp [requiredFieldsPresent, hbd]
  rcases hba : p.bathrooms with _ | ba
  · simp [requiredFieldsPresent, hba]
  rcases hsq : p.sqft with _ | sq
  · simp [requiredFieldsPresent, hsq]
  rcases hpr : p.price with _ | pr
  · simp [requiredFieldsPresent, hpr]
  rcases hyb : p.yearBuilt with _ | yb
  · simp [requiredFieldsPresent, hyb]
  rcases hla : p.latitude with _ | la
  · simp [requiredFieldsPresent, hla]
  simp [rangeChecksOk, hv, hbd, hba, hsq, hpr, hyb, hla, hbad]

/-- A record that is rejected by validation is never written. -/
lemma insertSingle_of_invalid (store : Store) (p : GeneratedProperty)
    (txOk : Bool) (hv : validatePropertyData p = false) :
    insertSingleProperty store p txOk = (store, false) := by
  simp [insertSingleProperty, hv]

/-- C1: every generated record with a missing required field, a
non-positive or non-integral bedrooms/sqft/price, a non-positive
bathrooms, a year built outside [1800, current-year] (the source fixes
the upper bound at the constant 2024, the year the code was written,
so any current-year ≥ 2024 is covered), a latitude outside
[37.8, 37.9] or a longitude outside [-122.3, -122.2] makes
`validatePropertyData` return `false`, and `insertSingleProperty`
returns `false` with the store untouched, whatever the transaction
would have done. -/
theorem validate_rejects_bad_records (y : ℚ) (hy : 2024 ≤ y)
    (p : GeneratedProperty) (store : Store) (txOk : Bool)
    (hbad :
      (p.zpid = none ∨ p.address = none ∨ p.zipCode = none ∨
       p.latitude = none ∨ p.longitude = none ∨ p.bedrooms = none ∨
       p.bathrooms = none ∨ p.sqft = none ∨ p.yearBuilt = none ∨
       p.propertyType = none ∨ p.price = none) ∨
      (∃ b, p.bedrooms = some b ∧ (b ≤ 0 ∨ b.den ≠ 1)) ∨
      (∃ b, p.bathrooms = some b ∧ b ≤ 0) ∨
      (∃ s, p.sqft = some s ∧ (s ≤ 0 ∨ s.den ≠ 1)) ∨
      (∃ q, p.price = some q ∧ (q ≤ 0 ∨ q.den ≠ 1)) ∨
      (∃ v, p.yearBuilt = some v ∧ (v < 1800 ∨ y < v)) ∨
      (∃ v, p.latitude = some v ∧ (v < (37.8 : ℚ) ∨ (37.9 : ℚ) < v)) ∨
      (∃ v, p.longitude = some v ∧
        (v < (-122.3 : ℚ) ∨ (-122.2 : ℚ) < v))) :
    validatePropertyData p = false ∧
    insertSingleProperty store p txOk = (store, false) := by
  have hv : validatePropertyData p = false := by
    rcases hbad with h | ⟨b, hb, h⟩ | ⟨b, hb, h⟩ | ⟨b, hb, h⟩ |
      ⟨b, hb, h⟩ | ⟨b, hb, h⟩ | ⟨b, hb, h⟩ | ⟨b, hb, h⟩
    · exact validate_false_of_missing p h
    · exact validate_false_of_bad_bedrooms p b hb h
    · exact validate_false_of_bad_bathrooms p b hb h
    · exact validate_false_of_bad_sqft p b hb h
    · exact validate_false_of_bad_price p b hb h
    · refine validate_false_of_bad_year p b hb ?_
      rcases h with h | h
      · exact Or.inl h
      · exact Or.inr (lt_of_le_of_lt hy h)
    · exact validate_false_of_bad_latitude p b hb h
    · exact validate_false_of_bad_longitude p b hb h
  exact ⟨hv, insertSingle_of_invalid store p txOk hv⟩

/-- Witness for C1: the all-null record is rejected and not written. -/
theorem validate_rejects_bad_records_witness :
    validatePropertyData emptyProp = false ∧
    insertSingleProperty [] emptyProp true = ([], false) :=
  validate_rejects_bad_records 2024 (le_refl _) emptyProp [] true
    (Or.inl (Or.inl rfl))


/-- C2: duplicate handling is idempotent.  First, a record whose zpid is
already in the store is skipped: no write, `false` returned, never an
error.  Second, inserting a fresh valid record and then a record with
the same zpid again leaves exactly one stored record with that zpid,
the second attempt returning `false` on an unchanged store. -/
theorem duplicate_insert_idempotent :
    (∀ (store : Store) (p : GeneratedProperty) (txOk : Bool),
        existsZpid store p.zpid = true →
        insertSingleProperty store p txOk = (store, false)) ∧
    (∀ (store : Store) (p : GeneratedProperty) (txOk : Bool),
        validatePropertyData p = true →
        existsZpid store p.zpid = false →
        (insertSingleProperty store p true).2 = true ∧
        insertSingleProperty (insertSingleProperty store p true).1 p
            txOk = ((insertSingleProperty store p true).1, false) ∧
        (insertSingleProperty store p true).1.countP
            (fun r => r.zpid == p.zpid) = 1) := by
  constructor
  · intro store p txOk h
    by_cases hv : validatePropertyData p = false
    · simp [insertSingleProperty, hv]
    · simp [insertSingleProperty, hv, h]
  · intro store p txOk hv hnew
    have hv' : (validatePropertyData p = false) = False := by
      simp [hv]
    have h1 : insertSingleProperty store p true =
        (store ++ [{ zpid := p.zpid, prop := p,
                     photos := mkPhotoRows p }], true) := by
      simp [insertSingleProperty, hv', hnew]
    have hmem : existsZpid
        (store ++ [{ zpid := p.zpid, prop := p,
                     photos := mkPhotoRows p }]) p.zpid = true := by
      simp [existsZpid]
    have hzero : store.countP (fun r => r.zpid == p.zpid) = 0 := by
      refine List.countP_eq_zero.mpr ?_
      intro r hr
      have := List.any_eq_false.mp hnew r hr
      simpa using this
    refine ⟨by rw [h1], ?_, ?_⟩
    · rw [h1]
      simp [insertSingleProperty, hv', hmem]
    · rw [h1]
      simp [List.countP_append, hzero]


/-- Witness for C2: duplicate of an existing zpid is skipped, and a
fresh insert followed by a repeat leaves exactly one matching record. -/
theorem duplicate_insert_idempotent_witness :
    insertSingleProperty [sampleStored] sampleProp true =
      ([sampleStored], false) ∧
    ((insertSingleProperty [] sampleProp true).2 = true ∧
     insertSingleProperty (insertSingleProperty [] sampleProp true).1
         sampleProp true =
       ((insertSingleProperty [] sampleProp true).1, false) ∧
     (insertSingleProperty [] sampleProp true).1.countP
         (fun r => r.zpid == sampleProp.zpid) = 1) :=
  ⟨duplicate_insert_idempotent.1 [sampleStored] sampleProp true
      (by decide),
   duplicate_insert_idempotent.2 [] sampleProp true
      (by
        simp only [validatePropertyData, requiredFieldsPresent,
          rangeChecksOk, sampleProp]
        norm_num)
      (by decide)⟩

/-- C4: per-record failure isolation.  `insertProperties` is a total
function that visits every record in input order (the success-flag
trace has one entry per record), no per-record failure escapes to the
caller, and the returned count is exactly the number of records whose
`insertSingleProperty` call returned `true`; in particular the count
never exceeds the input length. -/
theorem insertProperties_count_correct (store : Store)
    (records : List (GeneratedProperty × Bool)) :
    (insertProperties store records).2 =
      (insertResults store records).count true ∧
    (insertResults store records).length = records.length ∧
    (insertProperties store records).2 ≤ records.length := by
  induction records generalizing store with
  | nil => simp [insertProperties, insertResults]
  | cons hd tl ih =>
    obtain ⟨p, tx⟩ := hd
    have h := ih (insertSingleProperty store p tx).1
    refine ⟨?_, ?_, ?_⟩
    · simp only [insertProperties, insertResults, List.count_cons, h.1]
      by_cases hb : (insertSingleProperty store p tx).2 <;>
        simp [hb, Nat.add_comm]
    · simp [insertResults, h.2.1]
    · simp only [insertProperties, List.length_cons]
      by_cases hb : (insertSingleProperty store p tx).2 <;>
        simp [hb] <;> omega


/-- C5 counterexample: the claim says the stored photo row's image URL
is left null, but inserting a valid record with one photo stores a row
whose photo_url is the placeholder URL, which is not null. -/
theorem photo_url_not_null_counterexample :
    insertSingleProperty [] photoProp true =
      ([{ zpid := photoProp.zpid, prop := photoProp,
          photos := [{ photoUrl := some (placeholderUrl photoProp.zpid 1)
                       caption := none
                       roomType := none
                       isPrimary := true
                       sortOrder := 0 }] }], true) ∧
    some (placeholderUrl photoProp.zpid 1) ≠ (none : Option String) := by
  have hv : validatePropertyData photoProp = true := by
    simp only [validatePropertyData, requiredFieldsPresent,
      rangeChecksOk, photoProp, sampleProp]
    norm_num
  have hv' : (validatePropertyData photoProp = false) = False := by
    simp [hv]
  have hph : photoProp.photos =
      some [(⟨none, none, none, none⟩ : GeneratedPhoto)] := rfl
  refine ⟨?_, by simp⟩
  simp [insertSingleProperty, hv', existsZpid, mkPhotoRows, hph,
    List.enum, List.enumFrom]

/-- C5 as amended: for every valid, fresh record with photo list `ps`,
the committed aggregate appends one record whose i-th photo row has its
image URL set to the placeholder URL built from the zpid and the
1-based index (not null), its sort order equal to the photo's given
sortOrder or defaulting to the array index, and its primary flag equal
to the photo's given isPrimary or defaulting to true exactly for index
0. -/
theorem photo_rows_postcondition (store : Store) (p : GeneratedProperty)
    (ps : List GeneratedPhoto) (hps : p.photos = some ps)
    (hv : validatePropertyData p = true)
    (hnew : existsZpid store p.zpid = false) :
    ∃ r : StoredRecord,
      insertSingleProperty store p true = (store ++ [r], true) ∧
      r.photos.length = ps.length ∧
      ∀ (i : ℕ) (hi : i < ps.length),
        r.photos[i]? = some
          { photoUrl := some (placeholderUrl p.zpid (i + 1))
            caption := (ps.get ⟨i, hi⟩).caption
            roomType := (ps.get ⟨i, hi⟩).roomType
            isPrimary := (ps.get ⟨i, hi⟩).isPrimary.getD (decide (i = 0))
            sortOrder := (ps.get ⟨i, hi⟩).sortOrder.getD (i : ℤ) } := by
  have hv' : (validatePropertyData p = false) = False := by
    simp [hv]
  refine ⟨{ zpid := p.zpid, prop := p, photos := mkPhotoRows p },
    ?_, ?_, ?_⟩
  · simp [insertSingleProperty, hv', hnew]
  · simp [mkPhotoRows, hps]
  · intro i hi
    simp [mkPhotoRows, hps, List.getElem?_map, List.getElem?_enum,
      List.getElem?_eq_getElem hi]

/-- Witness for amended C5: the single-photo record stores one photo
row with the placeholder URL, primary flag true and sort order 0. -/
theorem photo_rows_postcondition_witness :
    ∃ r : StoredRecord,
      insertSingleProperty [] photoProp true = ([] ++ [r], true) ∧
      r.photos.length =
        ([⟨none, none, none, none⟩] : List GeneratedPhoto).length ∧
      ∀ (i : ℕ)
        (hi : i < ([⟨none, none, none, none⟩] :
          List GeneratedPhoto).length),
        r.photos[i]? = some
          { photoUrl := some (placeholderUrl photoProp.zpid (i + 1))
            caption := (([⟨none, none, none, none⟩] :
              List GeneratedPhoto).get ⟨i, hi⟩).caption
            roomType := (([⟨none, none, none, none⟩] :
              List GeneratedPhoto).get ⟨i, hi⟩).roomType
            isPrimary := (([⟨none, none, none, none⟩] :
              List GeneratedPhoto).get ⟨i, hi⟩).isPrimary.getD
                (decide (i = 0))
            sortOrder := (([⟨none, none, none, none⟩] :
              List GeneratedPhoto).get ⟨i, hi⟩).sortOrder.getD
                (i : ℤ) } :=
  photo_rows_postcondition [] photoProp [⟨none, none, none, none⟩]
    (by rfl)
    (by
      simp only [validatePropertyData, requiredFieldsPresent,
        rangeChecksOk, photoProp, sampleProp]
      norm_num)
    (by decide)

/-- Slicing the empty request list yields no slices. -/
lemma sliceBatches_nil {α : Type} (b : ℕ) :
    sliceBatches b ([] : List α) = [] := by
  unfold sliceBatches
  rfl

/-- Unfolding the slicing loop on a non-empty list. -/
lemma sliceBatches_cons {α : Type} (b : ℕ) (l : List α)
    (hb : b ≠ 0) (hl : l ≠ []) :
    sliceBatches b l = l.take b :: sliceBatches b (l.drop b) := by
  obtain ⟨x, xs, rfl⟩ := List.exists_cons_of_ne_nil hl
  conv_lhs => unfold sliceBatches
  simp [hb]

/-- The number of slices is the ceiling of n / b. -/
lemma sliceBatches_length {α : Type} (b : ℕ) (hb : b ≠ 0) :
    ∀ (n : ℕ) (l : List α), l.length = n → l ≠ [] →
      (sliceBatches b l).length = (l.length + b - 1) / b := by
  intro n
  induction n using Nat.strong_induction_on with
  | _ n ih =>
    intro l hn hl
    rw [sliceBatches_cons b l hb hl]
    have hlen : l.length ≠ 0 := by simpa using hl
    by_cases hle : l.length ≤ b
    · have hdrop : l.drop b = [] := by
        rw [List.drop_eq_nil_iff]
        exact hle
      rw [hdrop, sliceBatches_nil]
      have e2 : l.length + b - 1 = (l.length - 1) + b := by omega
      rw [List.length_cons, List.length_nil, e2,
        Nat.add_div_right _ (Nat.pos_of_ne_zero hb)]
      have : (l.length - 1) / b = 0 := Nat.div_eq_of_lt (by omega)
      omega
    · push_neg at hle
      have hdl : (l.drop b).length = l.length - b := List.length_drop b l
      have hdrop_ne : l.drop b ≠ [] := by
        intro hc
        rw [hc] at hdl
        simp at hdl
        omega
      have hrec := ih (l.length - b) (by omega) (l.drop b) hdl hdrop_ne
      rw [List.length_cons, hrec, hdl]
      have e1 : l.length - b + b - 1 = l.length - 1 := by omega
      have e2 : l.length + b - 1 = (l.length - 1) + b := by omega
      rw [e1, e2, Nat.add_div_right _ (Nat.pos_of_ne_zero hb)]

/-- Concatenating the slices recovers the request list in order. -/
lemma sliceBatches_flatten {α : Type} (b : ℕ) (hb : b ≠ 0) :
    ∀ (n : ℕ) (l : List α), l.length = n →
      (sliceBatches b l).flatten = l := by
  intro n
  induction n using Nat.strong_induction_on with
  | _ n ih =>
    intro l hn
    by_cases hl : l = []
    · rw [hl, sliceBatches_nil]
      rfl
    · have hlen : l.length ≠ 0 := by simpa using hl
      rw [sliceBatches_cons b l hb hl, List.flatten_cons,
        ih ((l.drop b).length) (by simp [List.length_drop]; omega)
          (l.drop b) rfl]
      exact List.take_append_drop b l

/-- The slicing of a non-empty list is non-empty. -/
lemma sliceBatches_ne_nil {α : Type} (b : ℕ) (l : List α)
    (hb : b ≠ 0) (hl : l ≠ []) : sliceBatches b l ≠ [] := by
  rw [sliceBatches_cons b l hb hl]
  simp

/-- All slices except possibly the last have exactly b requests. -/
lemma sliceBatches_dropLast {α : Type} (b : ℕ) (hb : b ≠ 0) :
    ∀ (n : ℕ) (l : List α), l.length = n →
      ∀ s ∈ (sliceBatches b l).dropLast, s.length = b := by
  intro n
  induction n using Nat.strong_induction_on with
  | _ n ih =>
    intro l hn s hs
    by_cases hl : l = []
    · rw [hl, sliceBatches_nil] at hs
      simp at hs
    · have hlen : l.length ≠ 0 := by simpa using hl
      rw [sliceBatches_cons b l hb hl] at hs
      by_cases hle : l.length ≤ b
      · have hdrop : l.drop b = [] := by
          rw [List.drop_eq_nil_iff]
          exact hle
        rw [hdrop, sliceBatches_nil] at hs
        simp at hs
      · push_neg at hle
        have hdl : (l.drop b).length = l.length - b :=
          List.length_drop b l
        have hdrop_ne : l.drop b ≠ [] := by
          intro hc
          rw [hc] at hdl
          simp at hdl
          omega
        rw [List.dropLast_cons_of_ne_nil
          (sliceBatches_ne_nil b (l.drop b) hb hdrop_ne)] at hs
        rcases List.mem_cons.mp hs with h | h
        · rw [h, List.length_take]
          omega
        · exact ih ((l.drop b).length) (by rw [hdl]; omega)
            (l.drop b) rfl s h

/-- Every slice is non-empty and no longer than b. -/
lemma sliceBatches_mem {α : Type} (b : ℕ) (hb : b ≠ 0) :
    ∀ (n : ℕ) (l : List α), l.length = n →
      ∀ s ∈ sliceBatches b l, s.length ≤ b ∧ s ≠ [] := by
  intro n
  induction n using Nat.strong_induction_on with
  | _ n ih =>
    intro l hn s hs
    by_cases hl : l = []
    · rw [hl, sliceBatches_nil] at hs
      simp at hs
    · have hlen : l.length ≠ 0 := by simpa using hl
      rw [sliceBatches_cons b l hb hl] at hs
      rcases List.mem_cons.mp hs with h | h
      · subst h
        constructor
        · rw [List.length_take]
          omega
        · intro hc
          rcases List.take_eq_nil_iff.mp hc with h | h <;> simp_all
      · exact ih ((l.drop b).length)
          (by simp [List.length_drop]; omega) (l.drop b) rfl s h

/-- The generation loop does nothing on the empty list. -/
lemma runBatches_nil {α β : Type} (o : ℕ → Option (List β)) (b i : ℕ) :
    runBatches o b i ([] : List α) = ([], []) := by
  unfold runBatches
  rfl

/-- Unfolding one iteration of the generation loop. -/
lemma runBatches_cons {α β : Type} (o : ℕ → Option (List β)) (b i : ℕ)
    (l : List α) (hb : b ≠ 0) (hl : l ≠ []) :
    runBatches o b i l =
      match o i with
      | some r =>
          (BatchEvent.apiCall (l.take b) :: BatchEvent.pause 1000 ::
             (runBatches o b (i + 1) (l.drop b)).1,
           r ++ (runBatches o b (i + 1) (l.drop b)).2)
      | none =>
          (BatchEvent.apiCall (l.take b) ::
             (runBatches o b (i + 1) (l.drop b)).1,
           (runBatches o b (i + 1) (l.drop b)).2) := by
  obtain ⟨x, xs, rfl⟩ := List.exists_cons_of_ne_nil hl
  conv_lhs => unfold runBatches
  simp [hb]

/-- The slices sent by the generation loop are exactly the slicing of
the request list, whatever each call's outcome. -/
lemma apiSlices_runBatches {α β : Type} (o : ℕ → Option (List β))
    (b : ℕ) (hb : b ≠ 0) :
    ∀ (n : ℕ) (l : List α), l.length = n → ∀ i,
      apiSlices (runBatches o b i l).1 = sliceBatches b l := by
  intro n
  induction n using Nat.strong_induction_on with
  | _ n ih =>
    intro l hn i
    by_cases hl : l = []
    · rw [hl, runBatches_nil, sliceBatches_nil]
      rfl
    · have hlen : l.length ≠ 0 := by simpa using hl
      have hrec := ih ((l.drop b).length)
        (by simp [List.length_drop]; omega) (l.drop b) rfl (i + 1)
      rw [runBatches_cons o b i l hb hl, sliceBatches_cons b l hb hl]
      cases o i <;> simp [apiSlices, List.filterMap_cons] <;>
        [exact hrec; exact hrec]

/-- The trace pauses exactly once per slice whose call did not throw. -/
lemma pauseCount_runBatches {α β : Type} (o : ℕ → Option (List β))
    (b : ℕ) :
    ∀ (n : ℕ) (l : List α), l.length = n → ∀ i,
      pauseCount (runBatches o b i l).1 =
        successPauses o i (sliceBatches b l).length := by
  intro n
  induction n using Nat.strong_induction_on with
  | _ n ih =>
    intro l hn i
    by_cases hb : b = 0
    · subst hb
      cases l with
      | nil => rw [runBatches_nil, sliceBatches_nil]; rfl
      | cons x xs =>
          conv_lhs => unfold runBatches
          conv_rhs => unfold sliceBatches
          simp [pauseCount, successPauses]
    by_cases hl : l = []
    · rw [hl, runBatches_nil, sliceBatches_nil]
      rfl
    · have hlen : l.length ≠ 0 := by simpa using hl
      have hrec := ih ((l.drop b).length)
        (by simp [List.length_drop]; omega) (l.drop b) rfl (i + 1)
      rw [runBatches_cons o b i l hb hl, sliceBatches_cons b l hb hl]
      cases ho : o i <;>
        simp [pauseCount, List.countP_cons, successPauses, ho,
          List.length_cons] at hrec ⊢ <;> omega

/-- C6: batch slicing arithmetic.  For a non-empty request list and a
positive batch size, `generatePropertyBatch` issues one API call per
slice of the slicing, there are exactly ceil(n/b) slices, the slices
concatenate back to the request list in order, every slice before the
last has exactly b requests, and every slice is non-empty with at most
b requests. -/
theorem batch_slicing_arith {α β : Type} (requests : List α) (b : ℕ)
    (hb : 0 < b) (hne : requests ≠ [])
    (outcome : ℕ → Option (List β)) :
    apiSlices (generatePropertyBatch outcome requests b).1 =
      sliceBatches b requests ∧
    (sliceBatches b requests).length = (requests.length + b - 1) / b ∧
    (sliceBatches b requests).flatten = requests ∧
    (∀ s ∈ (sliceBatches b requests).dropLast, s.length = b) ∧
    (∀ s ∈ sliceBatches b requests, s.length ≤ b ∧ s ≠ []) := by
  have hb' : b ≠ 0 := Nat.pos_iff_ne_zero.mp hb
  exact ⟨apiSlices_runBatches outcome b hb' requests.length requests
      rfl 0,
    sliceBatches_length b hb' requests.length requests rfl hne,
    sliceBatches_flatten b hb' requests.length requests rfl,
    sliceBatches_dropLast b hb' requests.length requests rfl,
    sliceBatches_mem b hb' requests.length requests rfl⟩

/-- Witness for C6: 5 requests at batch size 2 give 3 calls of sizes
2, 2, 1; 3 requests at batch size 3 give exactly one call. -/
theorem batch_slicing_arith_witness :
    (apiSlices (generatePropertyBatch (fun _ => some ([] : List ℕ))
        [0, 1, 2, 3, 4] 2).1 = sliceBatches 2 [0, 1, 2, 3, 4] ∧
      (sliceBatches 2 [0, 1, 2, 3, 4]).length = (5 + 2 - 1) / 2 ∧
      (sliceBatches 2 [0, 1, 2, 3, 4]).flatten = [0, 1, 2, 3, 4] ∧
      (∀ s ∈ (sliceBatches 2 [0, 1, 2, 3, 4]).dropLast,
        s.length = 2) ∧
      (∀ s ∈ sliceBatches 2 [0, 1, 2, 3, 4],
        s.length ≤ 2 ∧ s ≠ [])) ∧
    sliceBatches 2 ([0, 1, 2, 3, 4] : List ℕ) = [[0, 1], [2, 3], [4]] ∧
    (sliceBatches 3 ([0, 1, 2] : List ℕ)).length = 1 :=
  ⟨batch_slicing_arith [0, 1, 2, 3, 4] 2 (by decide) (by decide)
      (fun _ => some ([] : List ℕ)),
   by simp [sliceBatches],
   by simp [sliceBatches]⟩

/-- C7 counterexample: a single slice whose API call throws produces a
trace containing its API call but no pause event at all, so no
1-second pause is executed after that slice. -/
theorem failed_slice_skips_pause_counterexample :
    (generatePropertyBatch (fun _ => (none : Option (List ℕ))) [(0 : ℕ)]
        1).1 = [BatchEvent.apiCall [0]] ∧
    pauseCount [BatchEvent.apiCall ([0] : List ℕ)] = 0 := by
  constructor
  · simp [generatePropertyBatch, runBatches]
  · rfl

/-- C7 as amended: the fixed 1-second pause runs after exactly those
slices whose API call completes without throwing (a call that merely
yields zero records still pauses); a slice whose call throws skips the
pause because `continue` jumps past it. -/
theorem pause_after_successful_slices {α β : Type}
    (outcome : ℕ → Option (List β)) (requests : List α) (b : ℕ) :
    pauseCount (generatePropertyBatch outcome requests b).1 =
      successPauses outcome 0 (sliceBatches b requests).length :=
  pauseCount_runBatches outcome b requests.length requests rfl 0

/-- C8 counterexample: with the credential present, a non-empty store
and the operator declining the confirmation prompt, the run ends
without reaching the summarizing state, and this early exit is not a
setup error — a cancellation mechanism the claim says does not exist. -/
theorem user_abort_counterexample :
    runGeneration true 1 false [] = RunOutcome.abortedByUser ∧
    isDone (runGeneration true 1 false []) = false ∧
    runGeneration true 1 false [] ≠ RunOutcome.setupError := by
  decide

/-- C8 as amended: a run reaches the terminal summarizing state unless
the setup credential check fails before planning, or the store is
non-empty and the operator declines the confirmation prompt (an early
return without a summary).  Past setup and the prompt, every run
reaches the summary whatever the chunks do. -/
theorem run_reaches_summary (apiKeyPresent : Bool) (dbCount : ℕ)
    (userConfirm : Bool) (chunks : List (ℕ × ChunkOutcome))
    (hkey : apiKeyPresent = true)
    (hok : dbCount = 0 ∨ userConfirm = true) :
    runGeneration apiKeyPresent dbCount userConfirm chunks =
      RunOutcome.done (processChunks chunks) := by
  subst hkey
  rcases hok with h | h <;> simp [runGeneration, generateAllData, h]

/-- Witness for amended C8: a fresh-store run reaches the summary. -/
theorem run_reaches_summary_witness :
    runGeneration true 0 true [] = RunOutcome.done (processChunks []) :=
  run_reaches_summary true 0 true [] rfl (Or.inl rfl)

/-- The inserted count never exceeds the number of records offered. -/
lemma insertProperties_snd_le (store : Store)
    (records : List (GeneratedProperty × Bool)) :
    (insertProperties store records).2 ≤ records.length := by
  induction records generalizing store with
  | nil => simp [insertProperties]
  | cons hd tl ih =>
    obtain ⟨p, tx⟩ := hd
    simp only [insertProperties, List.length_cons]
    have := ih (insertSingleProperty store p tx).1
    by_cases hb : (insertSingleProperty store p tx).2 <;>
      simp [hb] <;> omega

/-- One chunk step keeps inserted ≤ generated. -/
lemma processChunk_inserted_le (st : GenProgress)
    (c : ℕ × ChunkOutcome)
    (h : st.totalInserted ≤ st.totalGenerated) :
    (processChunk st c).totalInserted ≤
      (processChunk st c).totalGenerated := by
  obtain ⟨sz, out⟩ := c
  match out with
  | none => simpa [processChunk] using h
  | some gen =>
      by_cases he : gen.isEmpty
      · simpa [processChunk, he] using h
      · have hle := insertProperties_snd_le st.store gen
        simp [processChunk, he]
        omega

/-- One chunk step adds at most the chunk's request count to the
generated counter, provided the generation result respects the
request count. -/
lemma processChunk_generated_le (st : GenProgress) (sz : ℕ)
    (out : ChunkOutcome) (hbound : (out.getD []).length ≤ sz) :
    (processChunk st (sz, out)).totalGenerated ≤
      st.totalGenerated + sz := by
  match out with
  | none => simp [processChunk]
  | some gen =>
      by_cases he : gen.isEmpty
      · simp [processChunk, he]
      · simp only [Option.getD_some] at hbound
        simp [processChunk, he]
        omega

/-- Folding the chunk loop preserves inserted ≤ generated. -/
lemma foldl_inserted_le (chunks : List (ℕ × ChunkOutcome)) :
    ∀ st : GenProgress, st.totalInserted ≤ st.totalGenerated →
      (chunks.foldl processChunk st).totalInserted ≤
        (chunks.foldl processChunk st).totalGenerated := by
  induction chunks with
  | nil => intro st h; simpa using h
  | cons c cs ih =>
    intro st h
    simp only [List.foldl_cons]
    exact ih (processChunk st c) (processChunk_inserted_le st c h)

/-- Folding the chunk loop adds at most the planned request count to
the generated counter, under the per-chunk bound. -/
lemma foldl_generated_le (chunks : List (ℕ × ChunkOutcome)) :
    (∀ c ∈ chunks, ((c.2).getD []).length ≤ c.1) →
    ∀ st : GenProgress,
      (chunks.foldl processChunk st).totalGenerated ≤
        st.totalGenerated + plannedCount chunks := by
  induction chunks with
  | nil => intro _ st; simp [plannedCount]
  | cons c cs ih =>
    intro hb st
    obtain ⟨sz, out⟩ := c
    simp only [List.foldl_cons]
    have h1 := ih (fun d hd => hb d (List.mem_cons_of_mem _ hd))
      (processChunk st (sz, out))
    have h2 := processChunk_generated_le st sz out
      (hb (sz, out) (List.mem_cons_self _ _))
    have h3 : plannedCount ((sz, out) :: cs) =
        sz + plannedCount cs := by
      simp [plannedCount]
    omega

/-- C10 counterexample: one chunk of a single planned request whose
generation outcome delivers two records drives the generated counter to
2 while only 1 request was planned, so generated ≤ planned fails — the
code never bounds the model's record count by the request count. -/
theorem generated_exceeds_planned_counterexample :
    (processChunks [(1, some [(emptyProp, true), (emptyProp, true)])]
      ).totalGenerated = 2 ∧
    plannedCount [(1, some [(emptyProp, true), (emptyProp, true)])]
      = 1 ∧
    ¬ ((processChunks
          [(1, some [(emptyProp, true), (emptyProp, true)])]
        ).totalGenerated ≤
        plannedCount
          [(1, some [(emptyProp, true), (emptyProp, true)])]) := by
  decide

/-- C10 as amended: `insertProperties` returns a count between 0 and
its input length, so after every chunk prefix the running
totalInserted is at most the running totalGenerated; totalGenerated is
at most the requests planned so far provided each chunk's generation
outcome yields at most as many records as the chunk requested (a bound
the code itself does not enforce on the model's response). -/
theorem progress_counters_invariant :
    (∀ (store : Store) (records : List (GeneratedProperty × Bool)),
        (insertProperties store records).2 ≤ records.length) ∧
    (∀ chunks : List (ℕ × ChunkOutcome),
        (processChunks chunks).totalInserted ≤
          (processChunks chunks).totalGenerated) ∧
    (∀ chunks : List (ℕ × ChunkOutcome),
        (∀ c ∈ chunks, ((c.2).getD []).length ≤ c.1) →
        (processChunks chunks).totalGenerated ≤ plannedCount chunks) := by
  refine ⟨insertProperties_snd_le, ?_, ?_⟩
  · intro chunks
    exact foldl_inserted_le chunks initProgress (by simp [initProgress])
  · intro chunks hb
    have := foldl_generated_le chunks hb initProgress
    simpa [processChunks, initProgress] using this

/-- Witness for amended C10 at a concrete bounded chunk list. -/
theorem progress_counters_invariant_witness :
    (insertProperties [] [(emptyProp, true)]).2 ≤
      ([(emptyProp, true)] : List (GeneratedProperty × Bool)).length ∧
    (processChunks [(2, some [(emptyProp, true)])]).totalInserted ≤
      (processChunks [(2, some [(emptyProp, true)])]).totalGenerated ∧
    (processChunks [(2, some [(emptyProp, true)])]).totalGenerated ≤
      plannedCount [(2, some [(emptyProp, true)])] :=
  ⟨progress_counters_invariant.1 [] [(emptyProp, true)],
   progress_counters_invariant.2.1 [(2, some [(emptyProp, true)])],
   progress_counters_invariant.2.2 [(2, some [(emptyProp, true)])]
     (by decide)⟩

/-- The bathroom derivation always yields a strictly positive integer
multiple of one half, for a positive bedroom count and a multiplier of
at least 3/4. -/
lemma bathroomsOf_pos_halfint (bd : ℕ) (hbd : 0 < bd) (u : ℚ)
    (hu1 : 3 / 4 ≤ u) :
    (∃ k : ℤ, bathroomsOf bd u = (k : ℚ) / 2) ∧ 0 < bathroomsOf bd u := by
  constructor
  · exact ⟨jsRound ((bd : ℚ) * u * 2), rfl⟩
  · have h1 : (1 : ℚ) ≤ (bd : ℚ) := by exact_mod_cast hbd
    have hx : (3 / 2 : ℚ) ≤ (bd : ℚ) * u * 2 := by nlinarith
    have h2 : (2 : ℤ) ≤ jsRound ((bd : ℚ) * u * 2) := by
      unfold jsRound
      apply Int.le_floor.mpr
      push_cast
      linarith
    unfold bathroomsOf
    have h3 : (2 : ℚ) ≤ ((jsRound ((bd : ℚ) * u * 2) : ℤ) : ℚ) := by
      exact_mod_cast h2
    linarith

/-- C9: every request produced by `createPropertyRequests` from a
random stream of draws in [0, 1) whose bedroom count is positive has a
bathroom count that is a strictly positive integer multiple of 0.5
(the multiplier u = 0.75 + draw · 0.5 lies in [0.75, 1.25)). -/
theorem bathrooms_half_integer_positive (total : ℕ) (rng : ℕ → ℚ)
    (hrng : ∀ k, 0 ≤ rng k ∧ rng k < 1)
    (req : PropertyGenerationRequest)
    (hreq : req ∈ createPropertyRequests total rng)
    (hbd : 0 < req.bedrooms) :
    (∃ k : ℤ, req.bathrooms = (k : ℚ) / 2) ∧ 0 < req.bathrooms := by
  rw [createPropertyRequests] at hreq
  obtain ⟨i, hi, rfl⟩ := List.mem_map.mp hreq
  simp only at hbd ⊢
  have hu1 : (3 / 4 : ℚ) ≤ 3 / 4 + rng (3 * i + 2) * (1 / 2) := by
    have := (hrng (3 * i + 2)).1
    nlinarith
  exact bathroomsOf_pos_halfint _ hbd _ hu1

/-- Witness for C9: the request planned from the all-zero random
stream has 2 bedrooms and a positive half-integral bathroom count. -/
theorem bathrooms_half_integer_positive_witness :
    0 < ((createPropertyRequests 1 (fun _ => 0)).headI).bedrooms ∧
    ((∃ k : ℤ, ((createPropertyRequests 1 (fun _ => 0)).headI
        ).bathrooms = (k : ℚ) / 2) ∧
      0 < ((createPropertyRequests 1 (fun _ => 0)).headI).bathrooms) := by
  have hmem : ((createPropertyRequests 1 (fun _ => 0)).headI) ∈
      createPropertyRequests 1 (fun _ => 0) := by
    simp [createPropertyRequests]
  have hbd : 0 <
      ((createPropertyRequests 1 (fun _ => 0)).headI).bedrooms := by
    simp [createPropertyRequests, weightedRandom, weightedRandomGo,
      bedroomDist, propertyTypesDist]
    norm_num
  exact ⟨hbd, bathrooms_half_integer_positive 1 (fun _ => 0)
    (fun k => by norm_num) _ hmem hbd⟩

/-- Leading trim keeps a string whose head is not whitespace. -/
lemma ltrim_cons_nonws (c : Char) (l : List Char)
    (h : isJsWs c = false) : ltrimWs (c :: l) = c :: l := by
  simp [ltrimWs, List.dropWhile_cons, h]

/-- Leading trim drops a whitespace head. -/
lemma ltrim_cons_ws (c : Char) (l : List Char)
    (h : isJsWs c = true) : ltrimWs (c :: l) = ltrimWs l := by
  simp [ltrimWs, List.dropWhile_cons, h]

/-- A string fixed by leading trim has a non-whitespace head. -/
lemma head_nonws_of_ltrim_fixed (c : Char) (l : List Char)
    (h : ltrimWs (c :: l) = c :: l) : isJsWs c = false := by
  by_contra hc
  rw [Bool.not_eq_false] at hc
  rw [ltrim_cons_ws c l hc] at h
  have := congrArg List.length h
  have hle := (List.dropWhile_sublist (l := l) isJsWs).length_le
  simp [ltrimWs] at this
  omega

/-- Appending on the right cannot create leading whitespace. -/
lemma ltrim_append_fixed (t r : List Char) (h : ltrimWs t = t)
    (hne : t ≠ []) : ltrimWs (t ++ r) = t ++ r := by
  obtain ⟨c, t', rfl⟩ := List.exists_cons_of_ne_nil hne
  have hc := head_nonws_of_ltrim_fixed c t' h
  simpa using ltrim_cons_nonws c (t' ++ r) hc

/-- Trailing trim via the reversed string. -/
lemma rtrim_of_reverse_fixed (l : List Char)
    (h : ltrimWs l.reverse = l.reverse) : rtrimWs l = l := by
  rw [rtrimWs, h, List.reverse_reverse]

/-- Trailing trim drops a whitespace last character. -/
lemma rtrim_concat_ws (l : List Char) (c : Char)
    (h : isJsWs c = true) : rtrimWs (l ++ [c]) = rtrimWs l := by
  rw [rtrimWs, List.reverse_append]
  simp only [List.reverse_cons, List.reverse_nil, List.nil_append,
    List.singleton_append]
  rw [ltrim_cons_ws c l.reverse h]
  rfl

/-- A list is a Boolean prefix of itself followed by anything. -/
lemma isPrefixOf_append_self (l r : List Char) :
    l.isPrefixOf (l ++ r) = true := by
  induction l with
  | nil => simp [List.isPrefixOf]
  | cons c cs ih => simp [List.isPrefixOf, ih]

/-- A Boolean prefix of a longer pattern is itself a prefix. -/
lemma append_isPrefixOf (l₁ l₂ t : List Char)
    (h : (l₁ ++ l₂).isPrefixOf t = true) : l₁.isPrefixOf t = true := by
  induction l₁ generalizing t with
  | nil => simp [List.isPrefixOf]
  | cons c cs ih =>
      cases t with
      | nil => simp [List.isPrefixOf] at h
      | cons d ds =>
          simp only [List.cons_append, List.isPrefixOf] at h ⊢
          rcases Bool.and_eq_true_iff.mp h with ⟨h1, h2⟩
          exact Bool.and_eq_true_iff.mpr ⟨h1, ih ds h2⟩

/-- The closing fence is a Boolean suffix of the wrapped payload. -/
lemma fence_isSuffixOf_append (t : List Char) :
    fence3.isSuffixOf (t ++ '\n' :: fence3) = true := by
  rw [List.isSuffixOf, List.reverse_append]
  simp only [List.reverse_cons]
  have : ((fence3.reverse ++ ['\n']) ++ t.reverse) =
      fence3.reverse ++ (['\n'] ++ t.reverse) := by
    rw [List.append_assoc]
  rw [this]
  exact isPrefixOf_append_self fence3.reverse (['\n'] ++ t.reverse)

/-- Removing the last three characters of the wrapped payload leaves
the payload and its newline. -/
lemma take_drop_fence (t : List Char) :
    (t ++ '\n' :: fence3).take ((t ++ '\n' :: fence3).length - 3) =
      t ++ ['\n'] := by
  have hlen : (t ++ '\n' :: fence3).length = t.length + 4 := by
    simp [fence3]
  rw [hlen]
  have h4 : t.length + 4 - 3 = t.length + 1 := by omega
  rw [h4, List.take_append_eq_append_take,
    List.take_of_length_le (by omega)]
  congr 1
  have : t.length + 1 - t.length = 1 := by omega
  rw [this]
  rfl

/-- The trailing-fence replace recovers a trimmed payload. -/
lemma stripTrailing_of_wrapped (t : List Char) (hrt : rtrimWs t = t) :
    stripTrailingFence (t ++ '\n' :: fence3) = t := by
  rw [stripTrailingFence, if_pos (fence_isSuffixOf_append t),
    take_drop_fence t]
  rw [rtrim_concat_ws t '\n' (by decide)]
  exact hrt

/-- Dropping the newline after a fence opener leaves the payload. -/
lemma ltrim_newline_payload (t : List Char) (hlt : ltrimWs t = t)
    (hne : t ≠ []) (r : List Char) :
    ltrimWs ('\n' :: (t ++ r)) = t ++ r := by
  rw [ltrim_cons_ws '\n' _ (by decide)]
  exact ltrim_append_fixed t r hlt hne

/-- C3: markdown-fence stripping is equivalence-preserving.  For every
trimmed, non-empty payload `t` that does not itself open with a fence
(every JSON text, taken in trimmed form, qualifies), the stripping step
returns exactly `t` on the json-fenced wrapping, on the plain-fenced
wrapping, and on the bare payload, so all three parse to the identical
JSON value and the no-fence input passes through unchanged. -/
theorem fence_strip_equiv (t : List Char) (hlt : ltrimWs t = t)
    (hrt : rtrimWs t = t) (hne : t ≠ [])
    (hnf : fence3.isPrefixOf t = false) :
    stripFences (wrapJson t) = t ∧
    stripFences (wrapPlain t) = t ∧
    stripFences t = t := by
  have hbt : isJsWs btick = false := by decide
  have hwj : wrapJson t = btick :: (btick :: btick :: 'j' :: 's' ::
      'o' :: 'n' :: '\n' :: (t ++ '\n' :: fence3)) := by
    simp [wrapJson, fenceJson, fence3]
  have hrevj : (wrapJson t).reverse =
      btick :: (btick :: btick :: '\n' :: (t.reverse ++
        ('\n' :: fenceJson.reverse))) := by
    simp [wrapJson, fenceJson, fence3, List.reverse_append]
  have htrimj : jsTrim (wrapJson t) = wrapJson t := by
    rw [jsTrim]
    rw [hwj, ltrim_cons_nonws _ _ hbt, ← hwj]
    apply rtrim_of_reverse_fixed
    rw [hrevj]
    exact ltrim_cons_nonws _ _ hbt
  have hprejson : fenceJson.isPrefixOf (wrapJson t) = true := by
    rw [wrapJson]
    exact isPrefixOf_append_self fenceJson _
  have hdrop7 : (wrapJson t).drop 7 =
      '\n' :: (t ++ '\n' :: fence3) := by
    have : (7 : ℕ) = fenceJson.length := by rfl
    rw [wrapJson, this, List.drop_left]
  have hwp : wrapPlain t = btick :: (btick :: btick :: '\n' ::
      (t ++ '\n' :: fence3)) := by
    simp [wrapPlain, fence3]
  have hrevp : (wrapPlain t).reverse =
      btick :: (btick :: btick :: '\n' :: (t.reverse ++
        ('\n' :: fence3.reverse))) := by
    simp [wrapPlain, fence3, List.reverse_append]
  have htrimp : jsTrim (wrapPlain t) = wrapPlain t := by
    rw [jsTrim]
    rw [hwp, ltrim_cons_nonws _ _ hbt, ← hwp]
    apply rtrim_of_reverse_fixed
    rw [hrevp]
    exact ltrim_cons_nonws _ _ hbt
  have hprep_json : fenceJson.isPrefixOf (wrapPlain t) = false := by
    rw [hwp]
    simp [fenceJson, fence3, List.isPrefixOf]
  have hprep3 : fence3.isPrefixOf (wrapPlain t) = true := by
    rw [wrapPlain]
    have : fence3 ++ '\n' :: (t ++ '\n' :: fence3) =
        fence3 ++ ('\n' :: (t ++ '\n' :: fence3)) := rfl
    rw [this]
    exact isPrefixOf_append_self fence3 _
  have hdrop3 : (wrapPlain t).drop 3 =
      '\n' :: (t ++ '\n' :: fence3) := by
    have : (3 : ℕ) = fence3.length := by rfl
    rw [wrapPlain, this, List.drop_left]
  have htrimt : jsTrim t = t := by
    rw [jsTrim, hlt, hrt]
  have hnfj : fenceJson.isPrefixOf t = false := by
    by_contra hc
    rw [Bool.not_eq_false] at hc
    have := append_isPrefixOf fence3 ['j', 's', 'o', 'n'] t
      (by rw [← fenceJson]; exact hc)
    rw [this] at hnf
    simp at hnf
  refine ⟨?_, ?_, ?_⟩
  · rw [stripFences]
    simp only [htrimj, hprejson, if_true, hdrop7]
    rw [ltrim_newline_payload t hlt hne ('\n' :: fence3)]
    exact stripTrailing_of_wrapped t hrt
  · rw [stripFences]
    simp only [htrimp, hprep_json, Bool.false_eq_true, if_false,
      hprep3, if_true, hdrop3]
    rw [ltrim_newline_payload t hlt hne ('\n' :: fence3)]
    exact stripTrailing_of_wrapped t hrt
  · rw [stripFences]
    simp only [htrimt, hnfj, hnf, Bool.false_eq_true, if_false]

/-- Witness for C3: the JSON text 42 survives all three framings. -/
theorem fence_strip_equiv_witness :
    stripFences (wrapJson ['4', '2']) = ['4', '2'] ∧
    stripFences (wrapPlain ['4', '2']) = ['4', '2'] ∧
    stripFences ['4', '2'] = ['4', '2'] :=
  fence_strip_equiv ['4', '2'] (by decide) (by decide) (by decide)
    (by decide)

end ZillowData
